import Mathlib

/-!
Verification development for the onroad overlay window `OnroadWindow`.

Shallow embedding of `selfdrive/ui/qt/onroad/onroad_home.cc`
(`OnroadWindow::updateState` and the blocks of `OnroadWindow::paintEvent`).

Conventions of the embedding

* Function-local `static` variables of `paintEvent` become fields of explicit
  state records that each block takes and returns.
* The `int` countdowns are `Int`.  The only arithmetic on them is `- 1`; a
  countdown moves at most one below its previous value per painted frame (see
  `signalRun_bounds`), so it stays inside the 32-bit range on every run
  shorter than `2 ^ 31` frames.
* Quantities of type `float` / `double` are rationals (`ℚ`): comparisons,
  `std::min`, `std::max` and `std::abs` are exact on them; NaN and infinities
  are not represented.  In the FPS and text blocks arithmetic is carried out
  without rounding.  In the steering block, whose claim is about exact equality
  after iterated arithmetic, every operation is rounded as the machine rounds
  it (binary32 for `float`, binary64 for `double`, to nearest, ties to even).
* A `QString` is a `String`; the Qt operations used by the source are defined
  on the character list of the string.
* The class `QColor`, the status enumeration and the table `bg_colors` are
  declared outside the translated file; the table is a parameter.
* The header that declares the members of `OnroadWindow` is not among the
  translated sources; the jerk members carry the type `int` with which
  `appendJerkInfo` receives them.
-/

namespace Onroad

/-! ## Colours and status -/

/-- The `QColor` values are only copied and compared. -/
structure QColor where
  red : Nat
  green : Nat
  blue : Nat
  alpha : Nat
  deriving DecidableEq

/-- Status enumeration indexing `bg_colors`.  The entries the translated file
names are listed; entries it does not name are carried by `STATUS_OTHER`. -/
inductive UIStatus where
  | STATUS_ENGAGED
  | STATUS_TRAFFIC_MODE_ACTIVE
  | STATUS_EXPERIMENTAL_MODE_ACTIVE
  | STATUS_CONDITIONAL_OVERRIDDEN
  | STATUS_OTHER (n : Nat)
  deriving DecidableEq

open UIStatus

/-! ## Turn-signal block of `paintEvent` (lines 289-337) -/

/-- The two `static int` countdowns of the signal block. -/
structure SignalState where
  signalFramesLeft : Int
  signalFramesRight : Int
  deriving DecidableEq

/-- Values the signal block reads on one painted frame: `sm.frame` and the
members written by `updateState`. -/
structure SignalFrame where
  frame : Nat
  showSignal : Bool
  blindSpotLeft : Bool
  blindSpotRight : Bool
  turnSignalLeft : Bool
  turnSignalRight : Bool
  deriving DecidableEq

/-- What the signal block paints: the colour handed to `fillRect` for each
half, `none` when that half is not painted. -/
structure SignalPaint where
  left : Option QColor
  right : Option QColor
  deriving DecidableEq

/-- Initial value of the statics: `signalFramesLeft = 0`, `signalFramesRight = 0`. -/
def SignalState.init : SignalState := ⟨0, 0⟩

/-- Local `blindSpotActive` of line 293. -/
def blindSpotActive (f : SignalFrame) : Bool :=
  (f.blindSpotLeft && f.turnSignalLeft) || (f.blindSpotRight && f.turnSignalRight)

/-- Local `turnSignalActive` of line 294, computed from the countdowns before the update. -/
def turnSignalActive (st : SignalState) (f : SignalFrame) : Bool :=
  (f.turnSignalLeft && decide (st.signalFramesLeft > 0)) ||
    (f.turnSignalRight && decide (st.signalFramesRight > 0))

/-- Condition of the `if` on line 307. -/
def signalGate (st : SignalState) (f : SignalFrame) : Bool :=
  decide (f.frame % 20 = 0) || blindSpotActive f || turnSignalActive st f

/-- The conditional expression of lines 311 and 318:
`frame % 10 == 0 && blindSpotActive ? 5 : frame % 20 == 0 ? 10 : count - 1`. -/
def nextCount (f : SignalFrame) (count : Int) : Int :=
  if f.frame % 10 = 0 ∧ blindSpotActive f = true then 5
  else if f.frame % 20 = 0 then 10
  else count - 1

/-- Countdown update of one painted frame (lines 289-323). -/
def signalStep (st : SignalState) (f : SignalFrame) : SignalState :=
  if f.showSignal then
    if signalGate st f then
      { signalFramesLeft :=
          if f.turnSignalLeft then nextCount f st.signalFramesLeft else st.signalFramesLeft
        signalFramesRight :=
          if f.turnSignalRight then nextCount f st.signalFramesRight else st.signalFramesRight }
    else st
  else st

/-- Colour of one half after lines 296-323: starts as `bg`, becomes the
blind-spot colour when the side's blind-spot flag is set, and becomes the
active colour when the gate is passed, the side's turn signal is set and the
updated countdown is positive. -/
def sideColor (bg_colors : UIStatus → QColor) (bg : QColor) (gate blindSpot turnSignal : Bool)
    (newCount : Int) : QColor :=
  let c := if blindSpot then bg_colors STATUS_TRAFFIC_MODE_ACTIVE else bg
  if gate && turnSignal && decide (newCount > 0) then bg_colors STATUS_CONDITIONAL_OVERRIDDEN
  else c

/-- Painting of one frame by the signal block (lines 289-337). -/
def signalPaint (bg_colors : UIStatus → QColor) (bg : QColor) (st : SignalState)
    (f : SignalFrame) : SignalPaint :=
  if f.showSignal then
    let st' := signalStep st f
    let g := signalGate st f
    { left :=
        if f.turnSignalLeft then
          some (sideColor bg_colors bg g f.blindSpotLeft f.turnSignalLeft st'.signalFramesLeft)
        else none
      right :=
        if f.turnSignalRight then
          some (sideColor bg_colors bg g f.blindSpotRight f.turnSignalRight st'.signalFramesRight)
        else none }
  else ⟨none, none⟩

/-- Countdowns after painting a sequence of frames in order. -/
def signalRun (st : SignalState) (fs : List SignalFrame) : SignalState :=
  fs.foldl signalStep st

/-! ## FPS block of `paintEvent` (lines 400-423) -/

/-- Library `std::min(a, b)`: returns `b` when `b < a`, else `a`. -/
def stdMin (a b : ℚ) : ℚ := if b < a then b else a

/-- Library `std::max(a, b)`: returns `b` when `a < b`, else `a`. -/
def stdMax (a b : ℚ) : ℚ := if a < b then b else a

/-- The statics of the FPS block.  `fpsQueue` is the `std::queue`, front of
the queue first; an entry is `(timestamp in ms, fps)`. -/
structure FpsState where
  fpsQueue : List (Int × ℚ)
  avgFPS : ℚ
  maxFPS : ℚ
  minFPS : ℚ
  deriving DecidableEq

/-- Initial value of the statics: empty queue, `avgFPS = 0.0`, `maxFPS = 0.0`,
`minFPS = 99.9`. -/
def FpsState.init : FpsState := ⟨[], 0, 0, 999 / 10⟩

/-- The eviction loop of lines 413-415: pop the front while it is more than
60000 ms older than `currentMillis`. -/
def evict (currentMillis : Int) (q : List (Int × ℚ)) : List (Int × ℚ) :=
  q.dropWhile (fun e => decide (currentMillis - e.1 > 60000))

/-- The summation loop of lines 418-421, front to back. -/
def totalFPS (q : List (Int × ℚ)) : ℚ :=
  q.foldl (fun acc e => acc + e.2) 0

/-- Body of `if (showFPS)` up to the computation of `avgFPS` (lines 401-423),
run on every painted frame on which `showFPS` is set; `currentMillis` is the
value read from the clock on line 401. -/
def fpsBlock (st : FpsState) (currentMillis : Int) (fps : ℚ) : FpsState :=
  let minFPS := stdMin st.minFPS fps
  let maxFPS := stdMax st.maxFPS fps
  let q := evict currentMillis (st.fpsQueue ++ [(currentMillis, fps)])
  let avgFPS := if q.isEmpty then st.avgFPS else totalFPS q / (q.length : ℚ)
  { fpsQueue := q, avgFPS := avgFPS, maxFPS := maxFPS, minFPS := minFPS }

/-- State after ingesting a sequence of `(timestamp, fps)` samples in order. -/
def fpsRun (st : FpsState) (samples : List (Int × ℚ)) : FpsState :=
  samples.foldl (fun s e => fpsBlock s e.1 e.2) st

/-- Arithmetic mean of the fps values of a list of entries, as the spec words
it: the sum of the values divided by their number. -/
def meanFPS (q : List (Int × ℚ)) : ℚ :=
  (q.map Prod.snd).sum / (q.length : ℚ)

/-! ## Steering block of `paintEvent` (lines 233-240)

The static `smoothedSteer` is a `float`, the literals `0.1`, `0.9` and `0.01`
are `double`s, so the products and the sum of line 236 are `double` operations
whose result is rounded to `float` by the assignment, and the difference of
line 238 is a `float` operation whose result is compared with a `double`.  The
member `steer` is a `float` as well.  Results beyond the largest finite value
are not represented; none arises on line 236 from finite `float` inputs, and on
line 238 such a result fails the comparison like the unrounded one. -/

/-- Nearest integer, ties to the even neighbour. -/
def roundNE (x : ℚ) : Int :=
  if x - ⌊x⌋ < 1 / 2 then ⌊x⌋
  else if 1 / 2 < x - ⌊x⌋ then ⌊x⌋ + 1
  else if ⌊x⌋ % 2 = 0 then ⌊x⌋ else ⌊x⌋ + 1

/-- Rounding to the binary floating-point format with `p` significand bits and
least exponent `emin`, to nearest, ties to even: the value is rounded to a
multiple of `2 ^ (e - (p - 1))`, where `e` is the exponent of the value, not
below `emin`. -/
def roundBinary (p : Nat) (emin : Int) (x : ℚ) : ℚ :=
  if x = 0 then 0
  else
    let e := max (Int.log 2 |x|) emin
    let q : ℚ := 2 ^ (e - (p - 1))
    roundNE (x / q) * q

/-- Rounding to `float` (binary32). -/
def toFloat (x : ℚ) : ℚ := roundBinary 24 (-126) x

/-- Rounding to `double` (binary64). -/
def toDouble (x : ℚ) : ℚ := roundBinary 53 (-1022) x

/-- The `double` literal `0.1`. -/
def literal01 : ℚ := 3602879701896397 / 2 ^ 55

/-- The `double` literal `0.9`. -/
def literal09 : ℚ := 8106479329266893 / 2 ^ 53

/-- The `double` literal `0.01`. -/
def literal001 : ℚ := 5764607523034235 / 2 ^ 59

/-- Update of the static `smoothedSteer` by one painted frame (lines 233-240). -/
def steerBlock (showSteering : Bool) (steer : ℚ) (smoothedSteer : ℚ) : ℚ :=
  if showSteering then
    let s :=
      toFloat (toDouble (toDouble (literal01 * |steer|) + toDouble (literal09 * smoothedSteer)))
    if |toFloat (s - steer)| < literal001 then steer else s
  else smoothedSteer

/-- Value of `smoothedSteer` after `n` painted frames that all carry the same
`steer`, with the steering overlay enabled. -/
def steerAfter (steer : ℚ) (prior : ℚ) : Nat → ℚ
  | 0 => prior
  | n + 1 => steerBlock true steer (steerAfter steer prior n)

/-! ## `updateState` (lines 61-117) -/

/-- The fields of `UIState` / `UIScene` that `updateState` reads. -/
structure UIScene where
  started : Bool
  status : UIStatus
  acceleration_jerk : Int
  acceleration_jerk_difference : Int
  blind_spot_left : Bool
  blind_spot_right : Bool
  acceleration : ℚ
  fps : ℚ
  friction : ℚ
  has_lead : Bool
  lat_accel : ℚ
  live_valid : Bool
  show_blind_spot : Bool
  show_fps : Bool
  jerk_metrics : Bool
  signal_metrics : Bool
  steering_metrics : Bool
  lateral_tuning_metrics : Bool
  speed_jerk : Int
  speed_jerk_difference : Int
  steer : ℚ
  steering_angle_deg : ℚ
  turn_signal_left : Bool
  turn_signal_right : Bool
  deriving DecidableEq

/-- The members of `OnroadWindow` that `updateState` writes. -/
structure Window where
  bg : QColor
  accelerationJerk : Int
  accelerationJerkDifference : Int
  blindSpotLeft : Bool
  blindSpotRight : Bool
  currentAcceleration : ℚ
  fps : ℚ
  friction : ℚ
  hasLead : Bool
  latAccel : ℚ
  liveValid : Bool
  showBlindspot : Bool
  showFPS : Bool
  showJerk : Bool
  showSignal : Bool
  showSteering : Bool
  showTuning : Bool
  speedJerk : Int
  speedJerkDifference : Int
  steer : ℚ
  steeringAngleDeg : ℚ
  turnSignalLeft : Bool
  turnSignalRight : Bool
  deriving DecidableEq

/-- The condition of line 111 on the members after the assignments. -/
def anyGate (w : Window) : Bool :=
  w.showBlindspot || w.showFPS || (w.showJerk && w.hasLead) || w.showSignal ||
    w.showSteering || w.showTuning

/-- Members after the assignments of lines 78-109.  `showSignal` (line 101) is
computed before `turnSignalLeft` / `turnSignalRight` are assigned (lines
108-109), so it reads the values stored by the previous call. -/
def assignMembers (bg_colors : UIStatus → QColor) (w : Window) (s : UIScene) : Window :=
  { bg := if w.bg ≠ bg_colors s.status then bg_colors s.status else w.bg
    accelerationJerk := s.acceleration_jerk
    accelerationJerkDifference := s.acceleration_jerk_difference
    blindSpotLeft := s.blind_spot_left
    blindSpotRight := s.blind_spot_right
    currentAcceleration := s.acceleration
    fps := s.fps
    friction := s.friction
    hasLead := s.has_lead
    latAccel := s.lat_accel
    liveValid := s.live_valid
    showBlindspot := s.show_blind_spot && (s.blind_spot_left || s.blind_spot_right)
    showFPS := s.show_fps
    showJerk := s.jerk_metrics
    showSignal := s.signal_metrics && (w.turnSignalLeft || w.turnSignalRight)
    showSteering := s.steering_metrics
    showTuning := s.lateral_tuning_metrics
    speedJerk := s.speed_jerk
    speedJerkDifference := s.speed_jerk_difference
    steer := s.steer
    steeringAngleDeg := s.steering_angle_deg
    turnSignalLeft := s.turn_signal_left
    turnSignalRight := s.turn_signal_right }

/-- Method `OnroadWindow::updateState`: the members afterwards and whether `update()`
(a repaint request) was called.  The calls into the alert and camera widgets
are outside the translated file and are taken not to throw. -/
def updateState (bg_colors : UIStatus → QColor) (w : Window) (s : UIScene) : Window × Bool :=
  if !s.started then (w, false)
  else
    let shouldUpdate₀ := decide (w.bg ≠ bg_colors s.status)
    let w' := assignMembers bg_colors w s
    let shouldUpdate := shouldUpdate₀ || anyGate w'
    (w', shouldUpdate)

/-! ## `QString` operations used by the text block

`QString::arg`, `QString::endsWith`, `QString::chop` and the number
formatting belong to the Qt library, not to the translated file.  They are
modelled after the library's documented behaviour: `arg` replaces every
occurrence of the lowest-numbered place marker (`%1` ... `%99`, optionally
written `%L1` ...) and leaves a string without marker unchanged. -/

/-- ASCII decimal digit test used when a place marker is read. -/
def isDigitChar (c : Char) : Bool := decide ('0'.toNat ≤ c.toNat) && decide (c.toNat ≤ '9'.toNat)

/-- Value of a decimal digit character. -/
def digitValue (c : Char) : Nat := c.toNat - '0'.toNat

/-- Reads the digits of a place marker: one digit, or two when the next
character is a digit as well.  Returns the marker number and how many
characters the digits take. -/
def markerDigits : List Char → Option (Nat × Nat)
  | [] => none
  | d :: rest =>
    if isDigitChar d then
      match rest with
      | [] => some (digitValue d, 1)
      | e :: _ =>
        if isDigitChar e then some (10 * digitValue d + digitValue e, 2)
        else some (digitValue d, 1)
    else none

/-- A place marker at the head of the text: the character `%`, an optional `L`,
then one or two digits.  Returns the marker number and the length of the
marker. -/
def markerAt : List Char → Option (Nat × Nat)
  | [] => none
  | c :: rest =>
    if c = '%' then
      match rest with
      | [] => none
      | l :: rest' =>
        if l = 'L' then (markerDigits rest').map (fun p => (p.1, p.2 + 2))
        else (markerDigits rest).map (fun p => (p.1, p.2 + 1))
    else none

/-- Smaller of two optional marker numbers. -/
def optMin : Option Nat → Option Nat → Option Nat
  | none, b => b
  | some a, none => some a
  | some a, some b => some (min a b)

/-- Lowest place-marker number occurring in the text, if any. -/
def lowestMarker : List Char → Option Nat
  | [] => none
  | c :: cs => optMin ((markerAt (c :: cs)).map Prod.fst) (lowestMarker cs)

/-- Replaces every place marker numbered `n` by `a`.  `skip` counts the
characters of a marker just replaced that are still to be passed over. -/
def replaceMarkers (n : Nat) (a : List Char) : Nat → List Char → List Char
  | _, [] => []
  | skip + 1, _ :: cs => replaceMarkers n a skip cs
  | 0, c :: cs =>
    match markerAt (c :: cs) with
    | some (k, len) =>
      if k = n then a ++ replaceMarkers n a (len - 1) cs
      else c :: replaceMarkers n a 0 cs
    | none => c :: replaceMarkers n a 0 cs

/-- Substitution of `QString::arg` on character lists: every occurrence of
the lowest-numbered place marker is replaced by the argument; a text without
place marker is returned unchanged. -/
def qargChars (s a : List Char) : List Char :=
  match lowestMarker s with
  | none => s
  | some n => replaceMarkers n a 0 s

/-- Method `QString::arg(const QString &)` with field width 0. -/
def qarg (s a : String) : String := ⟨qargChars s.data a.data⟩

/-- Method `QString::endsWith`. -/
def qendsWith (s t : String) : Bool := t.data.isSuffixOf s.data

/-- Method `QString::chop(n)`: removes `n` characters from the end; the result is
empty when `n` is at least the length. -/
def qchop (s : String) (n : Nat) : String := ⟨s.data.take (s.data.length - n)⟩

/-- Decimal text of an `int`, as `QString::arg(int)` inserts it. -/
def intText (i : Int) : String := toString i

/-- Nearest integer to a non-negative rational, halves rounded up. -/
def roundNat (x : ℚ) : Nat := (⌊x + 1 / 2⌋).toNat

/-- Pads a digit string with leading zeros to `width` characters. -/
def zeroPad (width : Nat) (s : String) : String :=
  ⟨List.replicate (width - s.data.length) '0' ++ s.data⟩

/-- Text of `QString::arg(double, 0, 'f', prec)`: fixed notation with `prec`
decimals, the magnitude rounded to the nearest multiple of `10 ^ (-prec)` and a
minus sign in front of every negative value. -/
def fixedText (x : ℚ) (prec : Nat) : String :=
  let scaled := roundNat (|x| * 10 ^ prec)
  let whole := scaled / 10 ^ prec
  let frac := scaled % 10 ^ prec
  (if x < 0 then "-" else "") ++ Nat.repr whole ++
    (if prec = 0 then "" else "." ++ zeroPad prec (Nat.repr frac))


/-! ## Text block of `paintEvent` (lines 339-373) -/

/-- The lambda `appendJerkInfo` (lines 350-356), returning the new value of
`displayString`. -/
def appendJerkInfo (displayString label : String) (value difference : Int) : String :=
  let s1 := displayString ++ qarg (qarg "%1: %2" label) (intText value)
  let s2 :=
    if difference ≠ 0 then
      s1 ++ qarg (qarg " (%1%2)" (if difference > 0 then "-" else "")) (intText difference)
    else s1
  s2 ++ " | "

/-- Values the text block reads: members written by `updateState` and the two
fields of the camera widget (`nvg->accelerationConversion`,
`nvg->accelerationUnit`). -/
structure TextInput where
  showJerk : Bool
  showTuning : Bool
  liveValid : Bool
  currentAcceleration : ℚ
  accelerationConversion : ℚ
  accelerationUnit : String
  accelerationJerk : Int
  accelerationJerkDifference : Int
  speedJerk : Int
  speedJerkDifference : Int
  friction : ℚ
  latAccel : ℚ

/-- Update of the static `maxAcceleration` (line 343). -/
def nextMaxAcceleration (maxAcceleration : ℚ) (i : TextInput) : ℚ :=
  if i.showJerk then stdMax (i.currentAcceleration * i.accelerationConversion) maxAcceleration
  else maxAcceleration

/-- Value of `logicsDisplayString` as it stands after line 369, before the trailing
delimiter is removed. -/
def logicsRaw (maxAcceleration : ℚ) (i : TextInput) : String :=
  let s0 := ""
  let s1 :=
    if i.showJerk then
      s0 ++ qarg (qarg (qarg "Acceleration: %1 %3 - Max: %2 %3 | "
        (fixedText (i.currentAcceleration * i.accelerationConversion) 1))
        (fixedText (nextMaxAcceleration maxAcceleration i) 1)) i.accelerationUnit
    else s0
  let s2 :=
    if i.showJerk then
      appendJerkInfo
        (appendJerkInfo s1 "Acceleration Jerk" i.accelerationJerk i.accelerationJerkDifference)
        "Speed Jerk" i.speedJerk i.speedJerkDifference
    else s1
  if i.showTuning then
    if i.liveValid then
      s2 ++ qarg (qarg "Friction: %1 | Lateral Acceleration: %2" (fixedText i.friction 3))
        (fixedText i.latAccel 3)
    else s2 ++ "Friction: Calculating... | Lateral Acceleration: Calculating..."
  else s2

/-- Value of `logicsDisplayString` after lines 371-373, which remove a trailing delimiter. -/
def logicsDisplayString (maxAcceleration : ℚ) (i : TextInput) : String :=
  let s := logicsRaw maxAcceleration i
  if qendsWith s " | " then qchop s 3 else s

/-! ### The phrases, as the specification words the composition -/

/-- Acceleration phrase: current and maximum acceleration with the unit. -/
def accelerationPhrase (current maxSeen : ℚ) (unit : String) : String :=
  "Acceleration: " ++ fixedText current 1 ++ " " ++ unit ++ " - Max: " ++
    fixedText maxSeen 1 ++ " " ++ unit

/-- Jerk phrase: label, value and, for a non-zero difference, the magnitude of
the difference behind a minus sign in parentheses. -/
def jerkPhrase (label : String) (value difference : Int) : String :=
  label ++ ": " ++ intText value ++
    (if difference = 0 then "" else " (-" ++ Nat.repr difference.natAbs ++ ")")

/-- Friction / lateral-acceleration phrase. -/
def tuningPhrase (liveValid : Bool) (friction latAccel : ℚ) : String :=
  if liveValid then
    "Friction: " ++ fixedText friction 3 ++ " | Lateral Acceleration: " ++ fixedText latAccel 3
  else "Friction: Calculating... | Lateral Acceleration: Calculating..."

/-- The enabled phrases in the order acceleration, acceleration jerk, speed
jerk, friction / lateral acceleration. -/
def enabledPhrases (maxAcceleration : ℚ) (i : TextInput) : List String :=
  (if i.showJerk then
    [accelerationPhrase (i.currentAcceleration * i.accelerationConversion)
        (nextMaxAcceleration maxAcceleration i) i.accelerationUnit,
      jerkPhrase "Acceleration Jerk" i.accelerationJerk i.accelerationJerkDifference,
      jerkPhrase "Speed Jerk" i.speedJerk i.speedJerkDifference]
  else []) ++
  (if i.showTuning then [tuningPhrase i.liveValid i.friction i.latAccel] else [])

/-! ## Auxiliary predicates used in the proofs -/

/-- Characters that occur in printed numbers: digits, the sign and the point. -/
def numChar (c : Char) : Bool := isDigitChar c || c == '-' || c == '.'

/-- The text is not empty and its last character is not the blank. -/
def endsPlain (s : String) : Bool :=
  match s.data.getLast? with
  | some c => c != ' '
  | none => false

/-- A table of distinct colours, used to instantiate the theorems. -/
def samplePalette : UIStatus → QColor
  | STATUS_ENGAGED => ⟨23, 134, 68, 241⟩
  | STATUS_TRAFFIC_MODE_ACTIVE => ⟨201, 34, 49, 241⟩
  | STATUS_EXPERIMENTAL_MODE_ACTIVE => ⟨218, 111, 37, 241⟩
  | STATUS_CONDITIONAL_OVERRIDDEN => ⟨255, 255, 0, 241⟩
  | STATUS_OTHER _ => ⟨23, 51, 73, 200⟩

/-- A window with every member cleared and a black border. -/
def sampleWindow : Window :=
  ⟨⟨0, 0, 0, 255⟩, 0, 0, false, false, 0, 0, 0, false, 0, false, false, false, false,
    false, false, false, 0, 0, 0, 0, false, false⟩

/-- The labels with which `paintEvent` calls `appendJerkInfo` (lines 359-360). -/
def jerkLabels : List String := ["Acceleration Jerk", "Speed Jerk"]

/-- The values the signal block reads on a painted frame: the frame counter
and the members as `updateState` left them. -/
def signalFrameOf (frame : Nat) (w : Window) : SignalFrame :=
  ⟨frame, w.showSignal, w.blindSpotLeft, w.blindSpotRight, w.turnSignalLeft, w.turnSignalRight⟩

/-- A started scene in which only the steering metric is enabled, at 5 degrees. -/
def sampleScene : UIScene :=
  ⟨true, STATUS_ENGAGED, 0, 0, false, false, 0, 0, 0, false, 0, false, false, false, false,
    false, true, false, 0, 0, 0, 5, false, false⟩
/-- A started scene with status `STATUS_CONDITIONAL_OVERRIDDEN`, the signal
metric enabled and the left turn signal set. -/
def overriddenScene : UIScene :=
  { sampleScene with
    status := STATUS_CONDITIONAL_OVERRIDDEN
    steering_metrics := false
    signal_metrics := true
    turn_signal_left := true }

/-- The window after `updateState` has run twice on `overriddenScene`. -/
def overriddenWindow : Window :=
  (updateState samplePalette (updateState samplePalette sampleWindow overriddenScene).1
    overriddenScene).1

/-! # Theorems -/

/-! ## Turn-signal countdowns -/

theorem nextCount_le (f : SignalFrame) (c : Int) (h : c ≤ 10) : nextCount f c ≤ 10 := by
  unfold nextCount; split_ifs <;> omega

theorem nextCount_ge (f : SignalFrame) (c : Int) : c - 1 ≤ nextCount f c ∨ 0 ≤ nextCount f c := by
  unfold nextCount; split_ifs <;> omega

theorem nextCount_eq_five (f : SignalFrame) (c : Int) (h : nextCount f c = 5) :
    (f.frame % 10 = 0 ∧ blindSpotActive f = true) ∨ c = 6 := by
  unfold nextCount at h
  split_ifs at h with h1 h2
  · exact Or.inl h1
  · omega
  · right; omega

theorem signalStep_left (st : SignalState) (f : SignalFrame) :
    (signalStep st f).signalFramesLeft =
      if f.showSignal = true ∧ signalGate st f = true ∧ f.turnSignalLeft = true then
        nextCount f st.signalFramesLeft
      else st.signalFramesLeft := by
  unfold signalStep
  by_cases h1 : f.showSignal = true <;> by_cases h2 : signalGate st f = true <;>
    by_cases h3 : f.turnSignalLeft = true <;> simp [h1, h2, h3]

theorem signalStep_right (st : SignalState) (f : SignalFrame) :
    (signalStep st f).signalFramesRight =
      if f.showSignal = true ∧ signalGate st f = true ∧ f.turnSignalRight = true then
        nextCount f st.signalFramesRight
      else st.signalFramesRight := by
  unfold signalStep
  by_cases h1 : f.showSignal = true <;> by_cases h2 : signalGate st f = true <;>
    by_cases h3 : f.turnSignalRight = true <;> simp [h1, h2, h3]

theorem signalRun_append (st : SignalState) (fs : List SignalFrame) (f : SignalFrame) :
    signalRun st (fs ++ [f]) = signalStep (signalRun st fs) f := by
  simp [signalRun, List.foldl_append]

/-- After `n` painted frames each countdown lies between `-n` and `10`. -/
theorem signalRun_bounds (fs : List SignalFrame) :
    -(fs.length : Int) ≤ (signalRun SignalState.init fs).signalFramesLeft ∧
    (signalRun SignalState.init fs).signalFramesLeft ≤ 10 ∧
    -(fs.length : Int) ≤ (signalRun SignalState.init fs).signalFramesRight ∧
    (signalRun SignalState.init fs).signalFramesRight ≤ 10 := by
  induction fs using List.reverseRecOn with
  | nil => simp [signalRun, SignalState.init]
  | append_singleton fs f ih =>
    rw [signalRun_append, signalStep_left, signalStep_right]
    obtain ⟨h1, h2, h3, h4⟩ := ih
    have a1 := nextCount_le f _ h2
    have a2 := nextCount_le f _ h4
    have b1 := nextCount_ge f (signalRun SignalState.init fs).signalFramesLeft
    have b2 := nextCount_ge f (signalRun SignalState.init fs).signalFramesRight
    simp only [List.length_append, List.length_singleton, Nat.cast_add, Nat.cast_one]
    refine ⟨?_, ?_, ?_, ?_⟩ <;> split_ifs <;> omega

theorem signalStep_conflict (st : SignalState) (f : SignalFrame) (hs : f.showSignal = true)
    (h10 : f.frame % 10 = 0) (hb : blindSpotActive f = true) :
    (f.turnSignalLeft = true → (signalStep st f).signalFramesLeft = 5) ∧
    (f.turnSignalRight = true → (signalStep st f).signalFramesRight = 5) := by
  have hg : signalGate st f = true := by simp [signalGate, hb]
  simp [signalStep, hs, hg, nextCount, h10, hb]
  constructor <;> intro h <;> simp [h]

/-- C1, as stated, fails: painted from the initial countdowns, a frame that is
not a multiple of 10, with the left turn signal and the left blind spot set,
takes the left countdown from 0 to -1, below the claimed range `[0, 10]`. -/
theorem countdown_negative_counterexample :
    (signalRun SignalState.init [⟨1, true, true, false, true, false⟩]).signalFramesLeft = -1 ∧
    ¬ (0 ≤ (signalRun SignalState.init [⟨1, true, true, false, true, false⟩]).signalFramesLeft ∧
      (signalRun SignalState.init [⟨1, true, true, false, true, false⟩]).signalFramesLeft
        ≤ 10) := by
  decide

/-- C1, amended: for every sequence of painted frames, starting from both
countdowns at 0, both countdowns are at most 10 after every frame, and after
`n` frames they are at least `-n` (the decrement is not clamped at 0). -/
theorem countdown_bounds (fs : List SignalFrame) :
    (signalRun SignalState.init fs).signalFramesLeft ≤ 10 ∧
    (signalRun SignalState.init fs).signalFramesRight ≤ 10 ∧
    -(fs.length : Int) ≤ (signalRun SignalState.init fs).signalFramesLeft ∧
    -(fs.length : Int) ≤ (signalRun SignalState.init fs).signalFramesRight :=
  ⟨(signalRun_bounds fs).2.1, (signalRun_bounds fs).2.2.2, (signalRun_bounds fs).1,
    (signalRun_bounds fs).2.2.1⟩

/-- C2, as stated, fails: with only the left turn signal set, frame 20 arms the
left countdown at 10 and frames 21 to 25 count it down, so it is exactly 5 after
frame 25, which is no 10-frame boundary and carries no blind-spot conflict. -/
theorem countdown_five_by_decrement :
    (signalStep
      (signalRun SignalState.init
        [⟨20, true, false, false, true, false⟩, ⟨21, true, false, false, true, false⟩,
          ⟨22, true, false, false, true, false⟩, ⟨23, true, false, false, true, false⟩,
          ⟨24, true, false, false, true, false⟩])
      ⟨25, true, false, false, true, false⟩).signalFramesLeft = 5 ∧
    ¬ (25 % 10 = 0) ∧
    blindSpotActive ⟨25, true, false, false, true, false⟩ = false := by
  decide

/-- C2, amended: for every sequence of painted frames from both countdowns at
0, a countdown equals 5 after a frame only if that frame was painted with the
signal overlay shown at a 10-frame boundary with a blind-spot+signal conflict
and that side's turn signal set (the frame set it), or the countdown was 6
before the frame, or it was already 5 before the frame; and every frame
painted with the overlay shown at a 10-frame boundary with a conflict sets the
countdown of each side whose turn signal is set to exactly 5. -/
theorem countdown_five_origin (fs : List SignalFrame) (f : SignalFrame) :
    ((signalStep (signalRun SignalState.init fs) f).signalFramesLeft = 5 →
      (f.showSignal = true ∧ f.turnSignalLeft = true ∧ f.frame % 10 = 0 ∧
          blindSpotActive f = true) ∨
        (signalRun SignalState.init fs).signalFramesLeft = 6 ∨
        (signalRun SignalState.init fs).signalFramesLeft = 5) ∧
    ((signalStep (signalRun SignalState.init fs) f).signalFramesRight = 5 →
      (f.showSignal = true ∧ f.turnSignalRight = true ∧ f.frame % 10 = 0 ∧
          blindSpotActive f = true) ∨
        (signalRun SignalState.init fs).signalFramesRight = 6 ∨
        (signalRun SignalState.init fs).signalFramesRight = 5) ∧
    (f.showSignal = true ∧ f.frame % 10 = 0 ∧ blindSpotActive f = true →
      (f.turnSignalLeft = true →
        (signalStep (signalRun SignalState.init fs) f).signalFramesLeft = 5) ∧
      (f.turnSignalRight = true →
        (signalStep (signalRun SignalState.init fs) f).signalFramesRight = 5)) := by
  generalize signalRun SignalState.init fs = st
  refine ⟨?_, ?_, ?_⟩
  · intro h
    rw [signalStep_left] at h
    split_ifs at h with h1
    · rcases nextCount_eq_five f _ h with h' | h'
      · exact Or.inl ⟨h1.1, h1.2.2, h'.1, h'.2⟩
      · exact Or.inr (Or.inl h')
    · exact Or.inr (Or.inr h)
  · intro h
    rw [signalStep_right] at h
    split_ifs at h with h1
    · rcases nextCount_eq_five f _ h with h' | h'
      · exact Or.inl ⟨h1.1, h1.2.2, h'.1, h'.2⟩
      · exact Or.inr (Or.inl h')
    · exact Or.inr (Or.inr h)
  · rintro ⟨hs, h10, hb⟩
    exact signalStep_conflict st f hs h10 hb

/-- Instance of the amended C2 at frame 30 with both turn signals and both
blind spots set, after frame 20 armed both countdowns at 10. -/
theorem countdown_five_origin_witness :
    (signalStep (signalRun SignalState.init [⟨20, true, false, false, true, true⟩])
        ⟨30, true, true, true, true, true⟩).signalFramesLeft = 5 ∧
    ((SignalFrame.mk 30 true true true true true).showSignal = true ∧
        (SignalFrame.mk 30 true true true true true).turnSignalLeft = true ∧
        (SignalFrame.mk 30 true true true true true).frame % 10 = 0 ∧
        blindSpotActive ⟨30, true, true, true, true, true⟩ = true) :=
  ⟨by decide,
    ((countdown_five_origin [⟨20, true, false, false, true, true⟩]
      ⟨30, true, true, true, true, true⟩).1 (by decide)).resolve_right (by decide)⟩

/-! ## Turn-signal colouring -/

theorem signalPaint_left (bg_colors : UIStatus → QColor) (bg : QColor) (st : SignalState)
    (f : SignalFrame) (hs : f.showSignal = true) (ht : f.turnSignalLeft = true) :
    (signalPaint bg_colors bg st f).left =
      some (if (signalStep st f).signalFramesLeft > 0 then bg_colors STATUS_CONDITIONAL_OVERRIDDEN
        else if f.blindSpotLeft = true then bg_colors STATUS_TRAFFIC_MODE_ACTIVE else bg) := by
  by_cases hg : signalGate st f = true
  · simp [signalPaint, hs, ht, sideColor, hg]
  · have hle : ¬ st.signalFramesLeft > 0 := by
      intro hpos
      apply hg
      simp [signalGate, turnSignalActive, ht, hpos]
    have hst : signalStep st f = st := by simp [signalStep, hg]
    simp [signalPaint, hs, ht, sideColor, hg, hst, hle]

theorem signalPaint_right (bg_colors : UIStatus → QColor) (bg : QColor) (st : SignalState)
    (f : SignalFrame) (hs : f.showSignal = true) (ht : f.turnSignalRight = true) :
    (signalPaint bg_colors bg st f).right =
      some (if (signalStep st f).signalFramesRight > 0 then bg_colors STATUS_CONDITIONAL_OVERRIDDEN
        else if f.blindSpotRight = true then bg_colors STATUS_TRAFFIC_MODE_ACTIVE else bg) := by
  by_cases hg : signalGate st f = true
  · simp [signalPaint, hs, ht, sideColor, hg]
  · have hle : ¬ st.signalFramesRight > 0 := by
      intro hpos
      apply hg
      simp [signalGate, turnSignalActive, ht, hpos]
    have hst : signalStep st f = st := by simp [signalStep, hg]
    simp [signalPaint, hs, ht, sideColor, hg, hst, hle]

/-- C9, as stated, fails when the background colour is the active signal
colour.  Two calls of `updateState` on a scene with status
`STATUS_CONDITIONAL_OVERRIDDEN`, the signal metric enabled and the left turn
signal set leave the overlay shown and `bg` equal to the active signal colour;
frame 1, painted from the initial countdowns, does not pass the gate of line
307, so the left half is painted with `bg`, which is the active signal colour,
although the left countdown after the frame is 0. -/
theorem signal_colour_background_counterexample :
    (signalFrameOf 1 overriddenWindow).showSignal = true ∧
    (signalFrameOf 1 overriddenWindow).turnSignalLeft = true ∧
    overriddenWindow.bg = samplePalette STATUS_CONDITIONAL_OVERRIDDEN ∧
    (signalPaint samplePalette overriddenWindow.bg SignalState.init
        (signalFrameOf 1 overriddenWindow)).left =
      some (samplePalette STATUS_CONDITIONAL_OVERRIDDEN) ∧
    (signalStep SignalState.init (signalFrameOf 1 overriddenWindow)).signalFramesLeft = 0 ∧
    ¬ ((signalPaint samplePalette overriddenWindow.bg SignalState.init
          (signalFrameOf 1 overriddenWindow)).left =
        some (samplePalette STATUS_CONDITIONAL_OVERRIDDEN) ↔
      (signalStep SignalState.init (signalFrameOf 1 overriddenWindow)).signalFramesLeft > 0) := by
  decide

/-- C9, amended: on every painted frame with the signal overlay shown, for each
side whose turn-signal flag is set, the colour that side is painted with is the
active signal colour when that side's countdown after this frame's update is
positive, and otherwise the blind-spot colour when that side's blind-spot flag
is set and the background colour when it is not.  When the active signal colour
differs from the blind-spot colour and from the background colour, the side is
painted in the active signal colour if and only if the updated countdown is
positive. -/
theorem signal_colouring (bg_colors : UIStatus → QColor) (bg : QColor) (st : SignalState)
    (f : SignalFrame) (hs : f.showSignal = true) :
    (f.turnSignalLeft = true →
      (signalPaint bg_colors bg st f).left =
          some (if (signalStep st f).signalFramesLeft > 0 then
              bg_colors STATUS_CONDITIONAL_OVERRIDDEN
            else if f.blindSpotLeft = true then bg_colors STATUS_TRAFFIC_MODE_ACTIVE else bg) ∧
        (bg_colors STATUS_CONDITIONAL_OVERRIDDEN ≠ bg_colors STATUS_TRAFFIC_MODE_ACTIVE →
          bg_colors STATUS_CONDITIONAL_OVERRIDDEN ≠ bg →
          ((signalPaint bg_colors bg st f).left = some (bg_colors STATUS_CONDITIONAL_OVERRIDDEN) ↔
            (signalStep st f).signalFramesLeft > 0))) ∧
    (f.turnSignalRight = true →
      (signalPaint bg_colors bg st f).right =
          some (if (signalStep st f).signalFramesRight > 0 then
              bg_colors STATUS_CONDITIONAL_OVERRIDDEN
            else if f.blindSpotRight = true then bg_colors STATUS_TRAFFIC_MODE_ACTIVE else bg) ∧
        (bg_colors STATUS_CONDITIONAL_OVERRIDDEN ≠ bg_colors STATUS_TRAFFIC_MODE_ACTIVE →
          bg_colors STATUS_CONDITIONAL_OVERRIDDEN ≠ bg →
          ((signalPaint bg_colors bg st f).right = some (bg_colors STATUS_CONDITIONAL_OVERRIDDEN) ↔
            (signalStep st f).signalFramesRight > 0))) := by
  constructor
  · intro ht
    have h := signalPaint_left bg_colors bg st f hs ht
    refine ⟨h, fun h1 h2 => ?_⟩
    rw [h]
    by_cases hp : (signalStep st f).signalFramesLeft > 0
    · simp [hp]
    · by_cases hb : f.blindSpotLeft = true
      · simp [hp, hb, Ne.symm h1]
      · simp [hp, hb, Ne.symm h2]
  · intro ht
    have h := signalPaint_right bg_colors bg st f hs ht
    refine ⟨h, fun h1 h2 => ?_⟩
    rw [h]
    by_cases hp : (signalStep st f).signalFramesRight > 0
    · simp [hp]
    · by_cases hb : f.blindSpotRight = true
      · simp [hp, hb, Ne.symm h1]
      · simp [hp, hb, Ne.symm h2]

/-- Instance of the amended C9: frame 21 with the left turn signal set and the
left countdown at 10 is painted in the active colour on the left. -/
theorem signal_colouring_witness :
    ((SignalFrame.mk 21 true false false true false).showSignal = true ∧
      (SignalFrame.mk 21 true false false true false).turnSignalLeft = true) ∧
    (signalPaint samplePalette ⟨0, 0, 0, 255⟩ ⟨10, 0⟩ ⟨21, true, false, false, true, false⟩).left =
      some (if (signalStep ⟨10, 0⟩ ⟨21, true, false, false, true, false⟩).signalFramesLeft > 0
          then samplePalette STATUS_CONDITIONAL_OVERRIDDEN
        else if (SignalFrame.mk 21 true false false true false).blindSpotLeft = true then
          samplePalette STATUS_TRAFFIC_MODE_ACTIVE
        else ⟨0, 0, 0, 255⟩) :=
  ⟨by decide,
    ((signal_colouring samplePalette ⟨0, 0, 0, 255⟩ ⟨10, 0⟩
      ⟨21, true, false, false, true, false⟩ (by decide)).1 (by decide)).1⟩

/-! ## Change detection -/

/-- C8: for every started scene sample and every prior state, `updateState`
requests a repaint if and only if the background colour of the sample's status
differs from the stored background colour or one of the gates `showBlindspot`,
`showFPS`, `showJerk` with `hasLead`, `showSignal`, `showSteering`,
`showTuning` is set by this call; a colour change alone requests a repaint,
and so does the steering metric alone, whatever the angle.  The last part
spells out the gates on the inputs (`showSignal` reads the turn-signal members
stored by the previous call). -/
theorem change_detection (bg_colors : UIStatus → QColor) (w : Window) (s : UIScene)
    (hs : s.started = true) :
    ((updateState bg_colors w s).2 = true ↔
      bg_colors s.status ≠ w.bg ∨
        (updateState bg_colors w s).1.showBlindspot = true ∨
        (updateState bg_colors w s).1.showFPS = true ∨
        ((updateState bg_colors w s).1.showJerk = true ∧
          (updateState bg_colors w s).1.hasLead = true) ∨
        (updateState bg_colors w s).1.showSignal = true ∨
        (updateState bg_colors w s).1.showSteering = true ∨
        (updateState bg_colors w s).1.showTuning = true) ∧
    (bg_colors s.status ≠ w.bg → (updateState bg_colors w s).2 = true) ∧
    (s.steering_metrics = true → (updateState bg_colors w s).2 = true) ∧
    (updateState bg_colors w s).1.bg = bg_colors s.status ∧
    ((updateState bg_colors w s).1.showBlindspot =
        (s.show_blind_spot && (s.blind_spot_left || s.blind_spot_right)) ∧
      (updateState bg_colors w s).1.showFPS = s.show_fps ∧
      (updateState bg_colors w s).1.showJerk = s.jerk_metrics ∧
      (updateState bg_colors w s).1.hasLead = s.has_lead ∧
      (updateState bg_colors w s).1.showSignal =
        (s.signal_metrics && (w.turnSignalLeft || w.turnSignalRight)) ∧
      (updateState bg_colors w s).1.showSteering = s.steering_metrics ∧
      (updateState bg_colors w s).1.showTuning = s.lateral_tuning_metrics) := by
  have hw : (updateState bg_colors w s).1 = assignMembers bg_colors w s := by
    simp [updateState, hs]
  have hu : (updateState bg_colors w s).2 =
      (decide (w.bg ≠ bg_colors s.status) || anyGate (assignMembers bg_colors w s)) := by
    simp [updateState, hs]
  rw [hw, hu]
  refine ⟨?_, ?_, ?_, ?_, ?_⟩
  · simp only [anyGate, Bool.or_eq_true, Bool.and_eq_true, decide_eq_true_eq]
    constructor
    · rintro (h | h)
      · exact Or.inl (fun e => h e.symm)
      · right; tauto
    · rintro (h | h)
      · exact Or.inl (fun e => h e.symm)
      · right; tauto
  · intro h
    simp only [Bool.or_eq_true, decide_eq_true_eq]
    exact Or.inl (fun e => h e.symm)
  · intro h
    simp [anyGate, assignMembers, h]
  · simp only [assignMembers]
    split_ifs with h
    · rfl
    · exact not_not.mp h
  · simp [assignMembers]

/-- Instance of C8: with only the steering metric enabled and the border colour
unchanged, a started sample at 5 degrees requests a repaint. -/
theorem change_detection_witness :
    sampleScene.started = true ∧
      (updateState (fun _ => ⟨0, 0, 0, 255⟩) sampleWindow sampleScene).2 = true :=
  ⟨rfl, (change_detection (fun _ => ⟨0, 0, 0, 255⟩) sampleWindow sampleScene rfl).2.2.1 rfl⟩

/-! ## FPS window and extrema -/

theorem stdMin_eq (a b : ℚ) : stdMin a b = min a b := by
  unfold stdMin
  split_ifs with h
  · exact (min_eq_right h.le).symm
  · exact (min_eq_left (not_lt.mp h)).symm

theorem stdMax_eq (a b : ℚ) : stdMax a b = max a b := by
  unfold stdMax
  split_ifs with h
  · exact (max_eq_right h.le).symm
  · exact (max_eq_left (not_lt.mp h)).symm

theorem fpsRun_append (st : FpsState) (l : List (Int × ℚ)) (x : Int × ℚ) :
    fpsRun st (l ++ [x]) = fpsBlock (fpsRun st l) x.1 x.2 := by
  simp [fpsRun, List.foldl_append]

theorem foldl_add_snd (q : List (Int × ℚ)) (a : ℚ) :
    q.foldl (fun acc e => acc + e.2) a = a + (q.map Prod.snd).sum := by
  induction q generalizing a with
  | nil => simp
  | cons e q ih => simp [ih, add_assoc]

theorem totalFPS_eq_sum (q : List (Int × ℚ)) : totalFPS q = (q.map Prod.snd).sum := by
  simp [totalFPS, foldl_add_snd]

/-- The entry just pushed survives the eviction loop. -/
theorem evict_append_self (t : Int) (f : ℚ) (q : List (Int × ℚ)) :
    ∃ l, evict t (q ++ [(t, f)]) = l ++ [(t, f)] := by
  induction q with
  | nil => exact ⟨[], by simp [evict, List.dropWhile]⟩
  | cons e q ih =>
    by_cases h : t - e.1 > 60000
    · obtain ⟨l, hl⟩ := ih
      refine ⟨l, ?_⟩
      simpa [evict, List.dropWhile, h] using hl
    · exact ⟨e :: q, by simp [evict, List.dropWhile, h]⟩

theorem fpsBlock_queue_ne_nil (st : FpsState) (t : Int) (f : ℚ) :
    (fpsBlock st t f).fpsQueue ≠ [] := by
  obtain ⟨l, hl⟩ := evict_append_self t f st.fpsQueue
  simp [fpsBlock, hl]

theorem fpsBlock_avg (st : FpsState) (t : Int) (f : ℚ) :
    (fpsBlock st t f).avgFPS = meanFPS (fpsBlock st t f).fpsQueue := by
  have h := fpsBlock_queue_ne_nil st t f
  simp only [fpsBlock] at h ⊢
  rw [if_neg (by simpa [List.isEmpty_iff] using h)]
  simp [meanFPS, totalFPS_eq_sum]

theorem evict_eq_filter (t : Int) (l : List (Int × ℚ))
    (h : l.Pairwise (fun a b => a.1 ≤ b.1)) :
    evict t l = l.filter (fun e => decide (t - e.1 ≤ 60000)) := by
  induction l with
  | nil => simp [evict]
  | cons a l ih =>
    rw [List.pairwise_cons] at h
    by_cases ha : t - a.1 > 60000
    · have : evict t (a :: l) = evict t l := by simp [evict, List.dropWhile, ha]
      rw [this, ih h.2, List.filter_cons_of_neg (by simp only [decide_eq_true_eq]; omega)]
    · have h1 : evict t (a :: l) = a :: l := by simp [evict, List.dropWhile, ha]
      rw [h1]
      symm
      rw [List.filter_eq_self]
      intro b hb
      rcases List.mem_cons.mp hb with rfl | hb
      · simp only [decide_eq_true_eq]; omega
      · have := h.1 b hb
        simp only [decide_eq_true_eq]
        omega

theorem queue_eq_filter (l : List (Int × ℚ)) :
    ∀ x : Int × ℚ, (l ++ [x]).Pairwise (fun a b => a.1 ≤ b.1) →
      (fpsRun FpsState.init (l ++ [x])).fpsQueue =
        (l ++ [x]).filter (fun e => decide (x.1 - e.1 ≤ 60000)) := by
  induction l using List.reverseRecOn with
  | nil =>
    intro x _
    simp [fpsRun, fpsBlock, FpsState.init, evict, List.dropWhile]
  | append_singleton l y ih =>
    intro x h
    have hly : (l ++ [y]).Pairwise (fun a b => a.1 ≤ b.1) :=
      (List.pairwise_append.mp h).1
    have hx : ∀ a ∈ l ++ [y], a.1 ≤ x.1 := fun a ha =>
      (List.pairwise_append.mp h).2.2 a ha x (by simp)
    have hyx : y.1 ≤ x.1 := hx y (by simp)
    rw [fpsRun_append]
    have hq : (fpsBlock (fpsRun FpsState.init (l ++ [y])) x.1 x.2).fpsQueue =
        evict x.1 ((fpsRun FpsState.init (l ++ [y])).fpsQueue ++ [x]) := rfl
    rw [hq, ih y hly]
    have hsorted : ((l ++ [y]).filter (fun e => decide (y.1 - e.1 ≤ 60000)) ++ [x]).Pairwise
        (fun a b => a.1 ≤ b.1) := by
      rw [List.pairwise_append]
      refine ⟨hly.sublist (List.filter_sublist _), List.pairwise_singleton _ _, ?_⟩
      intro a ha b hb
      rw [List.mem_singleton] at hb
      subst hb
      exact hx a (List.mem_of_mem_filter ha)
    rw [evict_eq_filter _ _ hsorted, List.filter_append, List.filter_filter,
      List.filter_append (l ++ [y]) [x]]
    congr 1
    apply List.filter_congr
    intro a _
    by_cases h1 : x.1 - a.1 ≤ 60000
    · have : y.1 - a.1 ≤ 60000 := by omega
      simp [h1, this]
    · simp [h1]

theorem fpsBlock_minFPS (st : FpsState) (t : Int) (f : ℚ) :
    (fpsBlock st t f).minFPS = min st.minFPS f := by
  simp [fpsBlock, stdMin_eq]

theorem fpsBlock_maxFPS (st : FpsState) (t : Int) (f : ℚ) :
    (fpsBlock st t f).maxFPS = max st.maxFPS f := by
  simp [fpsBlock, stdMax_eq]

theorem fpsRun_extrema (l : List (Int × ℚ)) :
    (fpsRun FpsState.init l).minFPS ≤ 999 / 10 ∧ 0 ≤ (fpsRun FpsState.init l).maxFPS ∧
      ∀ s ∈ l, (fpsRun FpsState.init l).minFPS ≤ s.2 ∧ s.2 ≤ (fpsRun FpsState.init l).maxFPS := by
  induction l using List.reverseRecOn with
  | nil => simp [fpsRun, FpsState.init]
  | append_singleton l x ih =>
    rw [fpsRun_append, fpsBlock_minFPS, fpsBlock_maxFPS]
    obtain ⟨h1, h2, h3⟩ := ih
    refine ⟨le_trans (min_le_left _ _) h1, le_trans h2 (le_max_left _ _), ?_⟩
    intro s hs
    rcases List.mem_append.mp hs with hs | hs
    · exact ⟨le_trans (min_le_left _ _) (h3 s hs).1, le_trans (h3 s hs).2 (le_max_left _ _)⟩
    · rw [List.mem_singleton] at hs
      subst hs
      exact ⟨min_le_right _ _, le_max_right _ _⟩

/-- C4: for every sequence of `(timestamp, fps)` samples with non-decreasing
timestamps, after each insertion-and-eviction step every retained entry is at
most 60000 ms older than the latest timestamp, the retained entries are
exactly the samples within that bound, and the average computed on that frame
is the arithmetic mean of the retained entries (the queue is never empty
then). -/
theorem fps_window_invariant (pre : List (Int × ℚ)) (x : Int × ℚ)
    (hmono : (pre ++ [x]).Chain' (fun a b => a.1 ≤ b.1)) :
    (∀ e ∈ (fpsRun FpsState.init (pre ++ [x])).fpsQueue, x.1 - e.1 ≤ 60000) ∧
    (fpsRun FpsState.init (pre ++ [x])).fpsQueue =
      (pre ++ [x]).filter (fun e => decide (x.1 - e.1 ≤ 60000)) ∧
    (fpsRun FpsState.init (pre ++ [x])).fpsQueue ≠ [] ∧
    (fpsRun FpsState.init (pre ++ [x])).avgFPS =
      meanFPS (fpsRun FpsState.init (pre ++ [x])).fpsQueue := by
  haveI : IsTrans (Int × ℚ) (fun a b => a.1 ≤ b.1) := ⟨fun _ _ _ => le_trans⟩
  have hp : (pre ++ [x]).Pairwise (fun a b => a.1 ≤ b.1) := List.chain'_iff_pairwise.mp hmono
  have hq := queue_eq_filter pre x hp
  refine ⟨?_, hq, ?_, ?_⟩
  · intro e he
    rw [hq] at he
    simpa using (List.mem_filter.mp he).2
  · rw [fpsRun_append]; exact fpsBlock_queue_ne_nil _ _ _
  · rw [fpsRun_append]; exact fpsBlock_avg _ _ _

/-- Instance of C4: samples at 0 ms, 1000 ms and 61000 ms; the queue after the
third is the samples at most 60000 ms older than 61000 ms. -/
theorem fps_window_invariant_witness :
    ([(0, 30), (1000, 20)] ++ [((61000, 10) : Int × ℚ)]).Chain'
      (fun (a b : Int × ℚ) => a.1 ≤ b.1) ∧
    (fpsRun FpsState.init ([(0, 30), (1000, 20)] ++ [((61000, 10) : Int × ℚ)])).fpsQueue =
      ([(0, 30), (1000, 20)] ++ [((61000, 10) : Int × ℚ)]).filter
        (fun e => decide ((61000, (10 : ℚ)).1 - e.1 ≤ 60000)) :=
  ⟨by simp, (fps_window_invariant [(0, 30), (1000, 20)] (61000, 10) (by simp)).2.1⟩

/-- C5, as stated, fails: from the initial state a frame with fps `-1` changes
the running minimum (99.9 becomes -1) and the windowed average (0 becomes
-1). -/
theorem negative_fps_changes_min :
    (fpsBlock FpsState.init 0 (-1)).minFPS ≠ FpsState.init.minFPS ∧
      (fpsBlock FpsState.init 0 (-1)).avgFPS ≠ FpsState.init.avgFPS := by
  constructor
  · rw [fpsBlock_minFPS]; norm_num [FpsState.init]
  · rw [fpsBlock_avg]
    norm_num [fpsBlock, FpsState.init, evict, List.dropWhile, meanFPS]

/-- C5, amended: in every state reached from the initial one, painting a frame
whose fps sample is negative leaves the running maximum FPS unchanged; the
sample is ingested like any other: the running minimum becomes the smaller of
its old value and the sample (so it is negative afterwards), the sample is in
the window, and the average is the mean of the window. -/
theorem negative_fps_ingested (pre : List (Int × ℚ)) (t : Int) (fps : ℚ) (h : fps < 0) :
    (fpsBlock (fpsRun FpsState.init pre) t fps).maxFPS = (fpsRun FpsState.init pre).maxFPS ∧
    (fpsBlock (fpsRun FpsState.init pre) t fps).minFPS =
      min (fpsRun FpsState.init pre).minFPS fps ∧
    (fpsBlock (fpsRun FpsState.init pre) t fps).minFPS < 0 ∧
    (t, fps) ∈ (fpsBlock (fpsRun FpsState.init pre) t fps).fpsQueue ∧
    (fpsBlock (fpsRun FpsState.init pre) t fps).avgFPS =
      meanFPS (fpsBlock (fpsRun FpsState.init pre) t fps).fpsQueue := by
  have h0 := (fpsRun_extrema pre).2.1
  refine ⟨?_, fpsBlock_minFPS _ _ _, ?_, ?_, fpsBlock_avg _ _ _⟩
  · rw [fpsBlock_maxFPS]; exact max_eq_left (le_trans h.le h0)
  · rw [fpsBlock_minFPS]; exact lt_of_le_of_lt (min_le_right _ _) h
  · obtain ⟨l, hl⟩ := evict_append_self t fps (fpsRun FpsState.init pre).fpsQueue
    have : (fpsBlock (fpsRun FpsState.init pre) t fps).fpsQueue = l ++ [(t, fps)] := hl
    rw [this]; simp

/-- Instance of the amended C5: after a sample of 30 fps, a sample of -1 fps
makes the running minimum negative. -/
theorem negative_fps_ingested_witness :
    (-1 : ℚ) < 0 ∧ (fpsBlock (fpsRun FpsState.init [(0, 30)]) 1000 (-1)).minFPS < 0 :=
  ⟨by norm_num, (negative_fps_ingested [(0, 30)] 1000 (-1) (by norm_num)).2.2.1⟩

/-- C6: across every sequence of fps samples the running minimum is
non-increasing and the running maximum non-decreasing from frame to frame, and
after each frame the minimum is at most, and the maximum at least, every
sample ingested so far. -/
theorem fps_extrema_monotone (pre : List (Int × ℚ)) (x : Int × ℚ) :
    (fpsBlock (fpsRun FpsState.init pre) x.1 x.2).minFPS ≤ (fpsRun FpsState.init pre).minFPS ∧
    (fpsRun FpsState.init pre).maxFPS ≤ (fpsBlock (fpsRun FpsState.init pre) x.1 x.2).maxFPS ∧
    ∀ s ∈ pre ++ [x],
      (fpsBlock (fpsRun FpsState.init pre) x.1 x.2).minFPS ≤ s.2 ∧
        s.2 ≤ (fpsBlock (fpsRun FpsState.init pre) x.1 x.2).maxFPS := by
  refine ⟨?_, ?_, ?_⟩
  · rw [fpsBlock_minFPS]; exact min_le_left _ _
  · rw [fpsBlock_maxFPS]; exact le_max_left _ _
  · rw [← fpsRun_append]
    exact (fpsRun_extrema (pre ++ [x])).2.2

/-- Instance of C6: after samples of 30 and 20 fps, the first sample lies
between the running minimum and maximum. -/
theorem fps_extrema_monotone_witness :
    ((0, 30) : Int × ℚ) ∈ [((0, 30) : Int × ℚ)] ++ [(1000, 20)] ∧
    ((fpsBlock (fpsRun FpsState.init [(0, 30)]) ((1000, 20) : Int × ℚ).1
          ((1000, 20) : Int × ℚ).2).minFPS ≤ ((0, 30) : Int × ℚ).2 ∧
      ((0, 30) : Int × ℚ).2 ≤ (fpsBlock (fpsRun FpsState.init [(0, 30)]) ((1000, 20) : Int × ℚ).1
          ((1000, 20) : Int × ℚ).2).maxFPS) :=
  ⟨by simp, (fps_extrema_monotone [(0, 30)] (1000, 20)).2.2 (0, 30) (by simp)⟩

/-! ## Steering smoothing -/

theorem floor_le_roundNE (x : ℚ) : ⌊x⌋ ≤ roundNE x := by
  unfold roundNE
  split_ifs <;> omega

/-- Rounding keeps a non-negative value non-negative. -/
theorem roundBinary_nonneg (p : Nat) (emin : Int) (x : ℚ) (h : 0 ≤ x) :
    0 ≤ roundBinary p emin x := by
  unfold roundBinary
  split_ifs with h0
  · exact le_rfl
  · have hq : (0 : ℚ) < 2 ^ (max (Int.log 2 |x|) emin - ((p : Int) - 1)) := by positivity
    have h1 : (0 : Int) ≤ roundNE (x / 2 ^ (max (Int.log 2 |x|) emin - ((p : Int) - 1))) :=
      le_trans (Int.floor_nonneg.mpr (div_nonneg h hq.le)) (floor_le_roundNE _)
    exact mul_nonneg (by exact_mod_cast h1) hq.le

/-- Rounding to `float` does not take a value from at least 1 to below 1. -/
theorem one_le_toFloat (x : ℚ) (h : 1 ≤ x) : 1 ≤ toFloat x := by
  have hx : 0 < x := lt_of_lt_of_le one_pos h
  have hL : 0 ≤ Int.log 2 x := by
    rw [Int.log_of_one_le_right 2 h]; exact Int.natCast_nonneg _
  have hpow : ((2 : ℕ) : ℚ) ^ Int.log 2 x ≤ x := Int.zpow_log_le_self (by norm_num) hx
  unfold toFloat roundBinary
  rw [if_neg hx.ne', abs_of_pos hx, max_eq_left (le_trans (by norm_num) hL)]
  simp only []
  have hq : (0 : ℚ) < 2 ^ (Int.log 2 x - ((24 : ℕ) - 1 : Int)) := by positivity
  have e : ((2 ^ 23 : Int) : ℚ) * 2 ^ (Int.log 2 x - ((24 : ℕ) - 1 : Int)) =
      (2 : ℚ) ^ Int.log 2 x := by
    rw [zpow_sub₀ (by norm_num : (2 : ℚ) ≠ 0)]
    norm_num
    field_simp
  have hdiv : ((2 ^ 23 : Int) : ℚ) ≤ x / 2 ^ (Int.log 2 x - ((24 : ℕ) - 1 : Int)) := by
    rw [le_div_iff₀ hq, e]
    exact_mod_cast hpow
  have hfl : (2 ^ 23 : Int) ≤ roundNE (x / 2 ^ (Int.log 2 x - ((24 : ℕ) - 1 : Int))) :=
    le_trans (Int.le_floor.mpr hdiv) (floor_le_roundNE _)
  have h2 : (1 : ℚ) ≤ (2 : ℚ) ^ Int.log 2 x := one_le_zpow₀ (by norm_num) hL
  calc (1 : ℚ) ≤ (2 : ℚ) ^ Int.log 2 x := h2
    _ = ((2 ^ 23 : Int) : ℚ) * 2 ^ (Int.log 2 x - ((24 : ℕ) - 1 : Int)) := e.symm
    _ ≤ (roundNE (x / 2 ^ (Int.log 2 x - ((24 : ℕ) - 1 : Int))) : ℚ) *
          2 ^ (Int.log 2 x - ((24 : ℕ) - 1 : Int)) :=
        mul_le_mul_of_nonneg_right (by exact_mod_cast hfl) hq.le

/-- With the raw input -1, a frame takes a non-negative smoothed value to a
non-negative smoothed value: the average of line 236 is non-negative and lies
at least 1 away from the input, so the snap of lines 238-239 does not fire. -/
theorem steerBlock_neg_one (s : ℚ) (h : 0 ≤ s) : 0 ≤ steerBlock true (-1) s := by
  have e : |(-1 : ℚ)| = 1 := by norm_num
  have hs : 0 ≤ toFloat (toDouble (toDouble (literal01 * 1) + toDouble (literal09 * s))) := by
    apply roundBinary_nonneg
    apply roundBinary_nonneg
    apply add_nonneg
    · exact roundBinary_nonneg _ _ _ (by norm_num [literal01])
    · exact roundBinary_nonneg _ _ _ (mul_nonneg (by norm_num [literal09]) h)
  simp only [steerBlock, if_true, e]
  have h1 : 1 ≤ toFloat
      (toFloat (toDouble (toDouble (literal01 * 1) + toDouble (literal09 * s))) - -1) :=
    one_le_toFloat _ (by linarith)
  have : ¬ |toFloat
      (toFloat (toDouble (toDouble (literal01 * 1) + toDouble (literal09 * s))) - -1)| <
      literal001 := by
    rw [abs_of_nonneg (le_trans zero_le_one h1)]
    have : literal001 < 1 := by norm_num [literal001]
    linarith
  rw [if_neg this]
  exact hs

theorem steerAfter_neg_one_nonneg (n : Nat) : 0 ≤ steerAfter (-1) 0 n := by
  induction n with
  | zero => simp [steerAfter]
  | succ n ih => exact steerBlock_neg_one _ ih

/-- C3, the code at the failing input: with the steering overlay enabled, the
initial smoothed value 0 and the raw steering input -1 on every frame, the
smoothed value is non-negative after every frame; it equals the raw input on
no frame, so there is no frame from which it equals the raw input. -/
theorem steer_negative_never_settles :
    (∀ n, 0 ≤ steerAfter (-1) 0 n) ∧
    (∀ n, steerAfter (-1) 0 n ≠ -1) ∧
    ¬ ∃ N, ∀ n, N ≤ n → steerAfter (-1) 0 n = -1 := by
  have hne : ∀ n, steerAfter (-1) 0 n ≠ -1 := by
    intro n hn
    have h := steerAfter_neg_one_nonneg n
    rw [hn] at h
    norm_num at h
  exact ⟨steerAfter_neg_one_nonneg, hne, fun ⟨N, hN⟩ => hne N (hN N le_rfl)⟩

/-! ## Text composition -/

/-! ### Place markers and `%`-free text -/

theorem markerAt_of_ne (c : Char) (cs : List Char) (h : c ≠ '%') : markerAt (c :: cs) = none := by
  simp [markerAt, h]

theorem lowestMarker_append_of_noPct (p r : List Char) (h : ∀ c ∈ p, c ≠ '%') :
    lowestMarker (p ++ r) = lowestMarker r := by
  induction p with
  | nil => rfl
  | cons c p ih =>
    have hc : c ≠ '%' := h c (by simp)
    show optMin ((markerAt (c :: (p ++ r))).map Prod.fst) (lowestMarker (p ++ r)) = _
    rw [markerAt_of_ne c _ hc, ih (fun d hd => h d (by simp [hd]))]
    rfl

theorem replaceMarkers_append_of_noPct (n : Nat) (a p r : List Char) (h : ∀ c ∈ p, c ≠ '%') :
    replaceMarkers n a 0 (p ++ r) = p ++ replaceMarkers n a 0 r := by
  induction p with
  | nil => rfl
  | cons c p ih =>
    have hc : c ≠ '%' := h c (by simp)
    show replaceMarkers n a 0 (c :: (p ++ r)) = c :: (p ++ replaceMarkers n a 0 r)
    rw [replaceMarkers, markerAt_of_ne c _ hc, ih (fun d hd => h d (by simp [hd]))]

/-! ### Characters of printed numbers -/

theorem numChar_ne_pct (c : Char) (h : numChar c = true) : c ≠ '%' := by
  rintro rfl; revert h; decide

theorem numChar_ne_space (c : Char) (h : numChar c = true) : c ≠ ' ' := by
  rintro rfl; revert h; decide

theorem numChar_digitChar (n : Nat) : numChar (Nat.digitChar (n % 10)) = true := by
  have h : n % 10 < 10 := Nat.mod_lt _ (by norm_num)
  interval_cases n % 10 <;> decide

theorem toDigitsCore_numChar (fuel : Nat) : ∀ (n : Nat) (ds : List Char),
    (∀ c ∈ ds, numChar c = true) → ∀ c ∈ Nat.toDigitsCore 10 fuel n ds, numChar c = true := by
  induction fuel with
  | zero => intro n ds h; simpa [Nat.toDigitsCore] using h
  | succ fuel ih =>
    intro n ds h
    have h' : ∀ c ∈ Nat.digitChar (n % 10) :: ds, numChar c = true := by
      intro c hc
      rcases List.mem_cons.mp hc with rfl | hc
      · exact numChar_digitChar n
      · exact h c hc
    simp only [Nat.toDigitsCore]
    split_ifs
    · exact h'
    · exact ih _ _ h'

theorem toDigitsCore_ne_nil (fuel : Nat) : ∀ (n : Nat) (ds : List Char),
    ds ≠ [] → Nat.toDigitsCore 10 fuel n ds ≠ [] := by
  induction fuel with
  | zero => intro n ds h; simpa [Nat.toDigitsCore] using h
  | succ fuel ih =>
    intro n ds _
    simp only [Nat.toDigitsCore]
    split_ifs
    · simp
    · exact ih _ _ (by simp)

theorem repr_numChar (n : Nat) : ∀ c ∈ (Nat.repr n).data, numChar c = true := by
  show ∀ c ∈ Nat.toDigitsCore 10 (n + 1) n [], numChar c = true
  exact toDigitsCore_numChar _ _ _ (by simp)

theorem repr_ne_nil (n : Nat) : (Nat.repr n).data ≠ [] := by
  show Nat.toDigitsCore 10 (n + 1) n [] ≠ []
  simp only [Nat.toDigitsCore]
  split_ifs
  · simp
  · exact toDigitsCore_ne_nil _ _ _ (by simp)

theorem intText_ofNat (m : Nat) : intText (Int.ofNat m) = Nat.repr m := rfl

theorem intText_negSucc (m : Nat) : intText (Int.negSucc m) = "-" ++ Nat.repr (m + 1) := rfl

theorem intText_numChar (i : Int) : ∀ c ∈ (intText i).data, numChar c = true := by
  cases i with
  | ofNat m => rw [intText_ofNat]; exact repr_numChar m
  | negSucc m =>
    rw [intText_negSucc]
    intro c hc
    rw [String.data_append, List.mem_append] at hc
    rcases hc with hc | hc
    · have : c = '-' := by simpa using hc
      subst this; decide
    · exact repr_numChar _ c hc

theorem intText_ne_nil (i : Int) : (intText i).data ≠ [] := by
  cases i with
  | ofNat m => rw [intText_ofNat]; exact repr_ne_nil m
  | negSucc m => rw [intText_negSucc]; simp

theorem fixedText_numChar (x : ℚ) (prec : Nat) : ∀ c ∈ (fixedText x prec).data, numChar c = true := by
  intro c hc
  simp only [fixedText, String.data_append, List.mem_append] at hc
  rcases hc with (hc | hc) | hc
  · split_ifs at hc
    · have : c = '-' := by simpa using hc
      subst this; decide
    · simp at hc
  · exact repr_numChar _ c hc
  · split_ifs at hc
    · simp at hc
    · rw [String.data_append, List.mem_append] at hc
      rcases hc with hc | hc
      · have : c = '.' := by simpa using hc
        subst this; decide
      · simp only [zeroPad, List.mem_append, List.mem_replicate] at hc
        rcases hc with hc | hc
        · rw [hc.2]; decide
        · exact repr_numChar _ c hc

theorem fixedText_ne_nil (x : ℚ) (prec : Nat) : (fixedText x prec).data ≠ [] := by
  simp only [fixedText, String.data_append]
  intro h
  have := List.append_eq_nil.mp h
  have := List.append_eq_nil.mp this.1
  exact repr_ne_nil _ this.2

/-! ### The four templates -/

theorem qarg_data (s a : String) : (qarg s a).data = qargChars s.data a.data := rfl

theorem noPct_of_numChar (l : List Char) (h : ∀ c ∈ l, numChar c = true) : ∀ c ∈ l, c ≠ '%' :=
  fun c hc => numChar_ne_pct c (h c hc)

/-- The jerk template `QString("%1: %2").arg(label).arg(value)` for a label
free of `%`. -/
theorem jerkTemplate (label : String) (value : Int) (h : ∀ c ∈ label.data, c ≠ '%') :
    qarg (qarg "%1: %2" label) (intText value) = label ++ ": " ++ intText value := by
  apply String.ext
  have e1 : (qarg "%1: %2" label).data = label.data ++ ": %2".data := rfl
  rw [qarg_data, e1]
  have e2 : lowestMarker (label.data ++ ": %2".data) = some 2 := by
    rw [lowestMarker_append_of_noPct _ _ h]; decide
  simp only [qargChars, e2]
  rw [replaceMarkers_append_of_noPct _ _ _ _ h]
  have e3 : replaceMarkers 2 (intText value).data 0 ": %2".data =
      ": ".data ++ ((intText value).data ++ []) := rfl
  rw [e3]
  simp only [String.data_append, List.append_assoc, List.append_nil]

/-- The difference template
`QString(" (%1%2)").arg(difference > 0 ? "-" : "").arg(difference)` prints, for
a non-zero difference, the magnitude behind a minus sign. -/
theorem differenceTemplate (d : Int) (h : d ≠ 0) :
    qarg (qarg " (%1%2)" (if d > 0 then "-" else "")) (intText d) =
      " (-" ++ Nat.repr d.natAbs ++ ")" := by
  cases d with
  | ofNat m =>
    have hm : (Int.ofNat m) > 0 := by
      have : m ≠ 0 := fun e => h (by simp [e])
      simp; omega
    rw [if_pos hm, intText_ofNat]
    rfl
  | negSucc m =>
    have hm : ¬ (Int.negSucc m) > 0 := by simp [Int.negSucc_lt_zero m |>.le]
    rw [if_neg hm, intText_negSucc]
    rfl

/-- The acceleration template with its three arguments. -/
theorem accelerationTemplate (a m u : String) (ha : ∀ c ∈ a.data, c ≠ '%')
    (hm : ∀ c ∈ m.data, c ≠ '%') :
    qarg (qarg (qarg "Acceleration: %1 %3 - Max: %2 %3 | " a) m) u =
      "Acceleration: " ++ a ++ " " ++ u ++ " - Max: " ++ m ++ " " ++ u ++ " | " := by
  have hlit : ∀ c ∈ "Acceleration: ".data, c ≠ '%' := by decide
  have hlit2 : ∀ c ∈ " - Max: ".data, c ≠ '%' := by decide
  -- first argument
  have e1 : (qarg "Acceleration: %1 %3 - Max: %2 %3 | " a).data =
      "Acceleration: ".data ++ (a.data ++ " %3 - Max: %2 %3 | ".data) := rfl
  -- second argument
  have l2 : lowestMarker ("Acceleration: ".data ++ (a.data ++ " %3 - Max: %2 %3 | ".data)) =
      some 2 := by
    rw [lowestMarker_append_of_noPct _ _ hlit, lowestMarker_append_of_noPct _ _ ha]; decide
  have r2 : replaceMarkers 2 m.data 0 " %3 - Max: %2 %3 | ".data =
      " %3 - Max: ".data ++ (m.data ++ " %3 | ".data) := rfl
  have e2 : (qarg (qarg "Acceleration: %1 %3 - Max: %2 %3 | " a) m).data =
      "Acceleration: ".data ++ (a.data ++ (" %3 - Max: ".data ++ (m.data ++ " %3 | ".data))) := by
    rw [qarg_data, e1]
    simp only [qargChars, l2]
    rw [replaceMarkers_append_of_noPct _ _ _ _ hlit, replaceMarkers_append_of_noPct _ _ _ _ ha, r2]
  -- third argument
  have l3a : lowestMarker (" %3 - Max: ".data ++ (m.data ++ " %3 | ".data)) =
      optMin (some 3) (lowestMarker (m.data ++ " %3 | ".data)) := rfl
  have l3 : lowestMarker ("Acceleration: ".data ++
      (a.data ++ (" %3 - Max: ".data ++ (m.data ++ " %3 | ".data)))) = some 3 := by
    rw [lowestMarker_append_of_noPct _ _ hlit, lowestMarker_append_of_noPct _ _ ha, l3a,
      lowestMarker_append_of_noPct _ _ hm]
    decide
  have r3a : replaceMarkers 3 u.data 0 (" %3 - Max: ".data ++ (m.data ++ " %3 | ".data)) =
      " ".data ++ (u.data ++ replaceMarkers 3 u.data 0 (" - Max: ".data ++
        (m.data ++ " %3 | ".data))) := rfl
  have r3b : replaceMarkers 3 u.data 0 " %3 | ".data = " ".data ++ (u.data ++ " | ".data) := rfl
  apply String.ext
  rw [qarg_data, e2]
  simp only [qargChars, l3]
  rw [replaceMarkers_append_of_noPct _ _ _ _ hlit, replaceMarkers_append_of_noPct _ _ _ _ ha, r3a,
    replaceMarkers_append_of_noPct _ _ _ _ hlit2, replaceMarkers_append_of_noPct _ _ _ _ hm, r3b]
  simp only [String.data_append, List.append_assoc]

/-- The friction template with its two arguments. -/
theorem frictionTemplate (f l : String) (hf : ∀ c ∈ f.data, c ≠ '%') :
    qarg (qarg "Friction: %1 | Lateral Acceleration: %2" f) l =
      "Friction: " ++ f ++ " | Lateral Acceleration: " ++ l := by
  have hlit : ∀ c ∈ "Friction: ".data, c ≠ '%' := by decide
  have e1 : (qarg "Friction: %1 | Lateral Acceleration: %2" f).data =
      "Friction: ".data ++ (f.data ++ " | Lateral Acceleration: %2".data) := rfl
  have l2 : lowestMarker ("Friction: ".data ++ (f.data ++ " | Lateral Acceleration: %2".data)) =
      some 2 := by
    rw [lowestMarker_append_of_noPct _ _ hlit, lowestMarker_append_of_noPct _ _ hf]; decide
  have r2 : replaceMarkers 2 l.data 0 " | Lateral Acceleration: %2".data =
      " | Lateral Acceleration: ".data ++ (l.data ++ []) := rfl
  apply String.ext
  rw [qarg_data, e1]
  simp only [qargChars, l2]
  rw [replaceMarkers_append_of_noPct _ _ _ _ hlit, replaceMarkers_append_of_noPct _ _ _ _ hf, r2]
  simp only [String.data_append, List.append_assoc, List.append_nil]

/-! ### Trailing delimiter -/

theorem endsPlain_iff (s : String) :
    endsPlain s = true ↔ ∃ t c, s.data = t ++ [c] ∧ c ≠ ' ' := by
  unfold endsPlain
  constructor
  · intro h
    rcases hl : s.data.getLast? with _ | c
    · rw [hl] at h; simp at h
    · rw [hl] at h
      obtain ⟨t, ht⟩ : ∃ t, s.data = t ++ [c] := by
        have hne : s.data ≠ [] := by
          intro e; rw [e] at hl; simp at hl
        refine ⟨s.data.dropLast, ?_⟩
        have h2 := List.getLast?_eq_getLast _ hne
        rw [hl] at h2
        have h3 : c = s.data.getLast hne := Option.some.inj h2
        rw [h3]
        exact (List.dropLast_append_getLast hne).symm
      exact ⟨t, c, ht, by simpa using h⟩
  · rintro ⟨t, c, ht, hc⟩
    rw [ht, List.getLast?_append]
    simpa using hc

theorem endsPlain_append (p s : String) (h : endsPlain s = true) :
    endsPlain (p ++ s) = true := by
  rw [endsPlain_iff] at h ⊢
  obtain ⟨t, c, ht, hc⟩ := h
  exact ⟨p.data ++ t, c, by rw [String.data_append, ht, List.append_assoc], hc⟩

theorem endsPlain_of_numChar (s : String) (h : ∀ c ∈ s.data, numChar c = true)
    (hne : s.data ≠ []) : endsPlain s = true := by
  rw [endsPlain_iff]
  refine ⟨s.data.dropLast, s.data.getLast hne, (List.dropLast_append_getLast hne).symm, ?_⟩
  exact numChar_ne_space _ (h _ (List.getLast_mem hne))

theorem qendsWith_of_endsPlain (s : String) (h : endsPlain s = true) :
    qendsWith s " | " = false := by
  rw [endsPlain_iff] at h
  obtain ⟨t, c, ht, hc⟩ := h
  rw [Bool.eq_false_iff]
  intro hs
  unfold qendsWith at hs
  rw [List.isSuffixOf_iff_suffix, ht] at hs
  obtain ⟨u, hu⟩ := hs
  have h1 : (u ++ " | ".data).getLast? = (t ++ [c]).getLast? := by rw [hu]
  have h2 : (u ++ " | ".data) = (u ++ [' ', '|']) ++ [' '] := by
    simp [List.append_assoc]
  rw [h2, List.getLast?_append, List.getLast?_append] at h1
  simp at h1
  exact hc h1.symm

theorem qendsWith_delimiter (x : String) : qendsWith (x ++ " | ") " | " = true := by
  unfold qendsWith
  rw [List.isSuffixOf_iff_suffix, String.data_append]
  exact List.suffix_append _ _

theorem qchop_delimiter (x : String) : qchop (x ++ " | ") 3 = x := by
  apply String.ext
  simp only [qchop, String.data_append, List.length_append]
  have : x.data.length + " | ".data.length - 3 = x.data.length := by
    show x.data.length + 3 - 3 = x.data.length
    omega
  rw [this, List.take_left']
  rfl

/-! ### `appendJerkInfo` -/

theorem appendJerkInfo_eq (ds label : String) (value d : Int) (h : ∀ c ∈ label.data, c ≠ '%') :
    appendJerkInfo ds label value d = ds ++ jerkPhrase label value d ++ " | " := by
  unfold appendJerkInfo jerkPhrase
  simp only [jerkTemplate label value h]
  by_cases hd : d = 0
  · subst hd
    apply String.ext
    simp [String.data_append]
  · rw [if_pos hd, differenceTemplate d hd, if_neg hd]
    apply String.ext
    simp [String.data_append]

theorem appendJerkInfo_neg (ds label : String) (value d : Int) :
    appendJerkInfo ds label value (-d) = appendJerkInfo ds label value d := by
  unfold appendJerkInfo
  by_cases hd : d = 0
  · subst hd; rfl
  · have hd' : -d ≠ 0 := by omega
    simp only [ne_eq, hd, hd', not_false_eq_true, if_true]
    rw [differenceTemplate d hd, differenceTemplate (-d) hd', Int.natAbs_neg]

theorem jerkPhrase_endsPlain (label : String) (value d : Int) :
    endsPlain (jerkPhrase label value d) = true := by
  unfold jerkPhrase
  by_cases hd : d = 0
  · rw [if_pos hd]
    have : label ++ ": " ++ intText value ++ "" = label ++ ": " ++ intText value := by
      apply String.ext; simp [String.data_append]
    rw [this]
    exact endsPlain_append _ _ (endsPlain_of_numChar _ (intText_numChar _) (intText_ne_nil _))
  · rw [if_neg hd]
    refine endsPlain_append _ _ ((endsPlain_iff _).mpr
      ⟨(" (-" ++ Nat.repr d.natAbs).data, ')', ?_, by decide⟩)
    rw [String.data_append]

theorem tuningPhrase_endsPlain (liveValid : Bool) (friction latAccel : ℚ) :
    endsPlain (tuningPhrase liveValid friction latAccel) = true := by
  unfold tuningPhrase
  split_ifs
  · exact endsPlain_append _ _
      (endsPlain_of_numChar _ (fixedText_numChar _ _) (fixedText_ne_nil _ _))
  · decide

/-! ### Composition -/

/-- With the jerk metrics shown, the text after the two calls of
`appendJerkInfo` is the three phrases, each followed by the delimiter. -/
theorem jerkPart_eq (maxAcceleration : ℚ) (i : TextInput) :
    appendJerkInfo
        (appendJerkInfo ("" ++ qarg (qarg (qarg "Acceleration: %1 %3 - Max: %2 %3 | "
          (fixedText (i.currentAcceleration * i.accelerationConversion) 1))
          (fixedText (nextMaxAcceleration maxAcceleration i) 1)) i.accelerationUnit)
          "Acceleration Jerk" i.accelerationJerk i.accelerationJerkDifference)
        "Speed Jerk" i.speedJerk i.speedJerkDifference =
      accelerationPhrase (i.currentAcceleration * i.accelerationConversion)
          (nextMaxAcceleration maxAcceleration i) i.accelerationUnit ++ " | " ++
        jerkPhrase "Acceleration Jerk" i.accelerationJerk i.accelerationJerkDifference ++ " | " ++
        jerkPhrase "Speed Jerk" i.speedJerk i.speedJerkDifference ++ " | " := by
  rw [appendJerkInfo_eq _ "Speed Jerk" _ _ (by decide),
    appendJerkInfo_eq _ "Acceleration Jerk" _ _ (by decide),
    accelerationTemplate _ _ _ (noPct_of_numChar _ (fixedText_numChar _ _))
      (noPct_of_numChar _ (fixedText_numChar _ _))]
  apply String.ext
  simp [accelerationPhrase, String.data_append]

theorem logicsDisplayString_phrases (maxAcceleration : ℚ) (i : TextInput) :
    logicsDisplayString maxAcceleration i =
        " | ".intercalate (enabledPhrases maxAcceleration i) ∧
      qendsWith (logicsDisplayString maxAcceleration i) " | " = false := by
  have hJ := jerkPart_eq maxAcceleration i
  have hT := tuningPhrase_endsPlain i.liveValid i.friction i.latAccel
  have hTe : (if i.liveValid = true then
        qarg (qarg "Friction: %1 | Lateral Acceleration: %2" (fixedText i.friction 3))
          (fixedText i.latAccel 3)
      else "Friction: Calculating... | Lateral Acceleration: Calculating...") =
      tuningPhrase i.liveValid i.friction i.latAccel := by
    unfold tuningPhrase
    split_ifs
    · exact frictionTemplate _ _ (noPct_of_numChar _ (fixedText_numChar _ _))
    · rfl
  have hraw : logicsRaw maxAcceleration i =
      (if i.showJerk = true then
        accelerationPhrase (i.currentAcceleration * i.accelerationConversion)
          (nextMaxAcceleration maxAcceleration i) i.accelerationUnit ++ " | " ++
        jerkPhrase "Acceleration Jerk" i.accelerationJerk i.accelerationJerkDifference ++ " | " ++
        jerkPhrase "Speed Jerk" i.speedJerk i.speedJerkDifference ++ " | " else "") ++
      (if i.showTuning = true then tuningPhrase i.liveValid i.friction i.latAccel else "") := by
    rw [← hTe, ← hJ]
    unfold logicsRaw
    by_cases hj : i.showJerk = true <;> by_cases ht : i.showTuning = true <;>
      by_cases hl : i.liveValid = true <;> simp [hj, ht, hl]
  unfold logicsDisplayString
  rw [hraw]
  unfold enabledPhrases
  by_cases hj : i.showJerk = true <;> by_cases ht : i.showTuning = true
  · simp only [hj, ht, if_true]
    have hp := endsPlain_append (accelerationPhrase (i.currentAcceleration * i.accelerationConversion)
          (nextMaxAcceleration maxAcceleration i) i.accelerationUnit ++ " | " ++
        jerkPhrase "Acceleration Jerk" i.accelerationJerk i.accelerationJerkDifference ++ " | " ++
        jerkPhrase "Speed Jerk" i.speedJerk i.speedJerkDifference ++ " | ") _ hT
    have he := qendsWith_of_endsPlain _ hp
    rw [he]
    simp only [Bool.false_eq_true, if_false, he, and_true]
    apply String.ext
    simp [String.intercalate, String.intercalate.go, String.data_append]
  · simp only [hj, ht, if_true, if_false, Bool.false_eq_true]
    have e : ∀ x : String, x ++ " | " ++ "" = x ++ " | " := by
      intro x; apply String.ext; simp [String.data_append]
    rw [e, qendsWith_delimiter, if_pos rfl, qchop_delimiter]
    refine ⟨?_, ?_⟩
    · apply String.ext
      simp [String.intercalate, String.intercalate.go, String.data_append]
    · exact qendsWith_of_endsPlain _ (endsPlain_append _ _ (jerkPhrase_endsPlain _ _ _))
  · simp only [hj, ht, if_true, if_false, Bool.false_eq_true]
    have e : "" ++ tuningPhrase i.liveValid i.friction i.latAccel =
        tuningPhrase i.liveValid i.friction i.latAccel := by
      apply String.ext; simp [String.data_append]
    rw [e, qendsWith_of_endsPlain _ hT]
    simp only [Bool.false_eq_true, if_false, qendsWith_of_endsPlain _ hT, and_true]
    rfl
  · simp only [hj, ht, if_false, Bool.false_eq_true]
    decide

theorem roundNat_32 : roundNat (|(16 / 5 : ℚ)| * 10 ^ 1) = 32 := by
  have e : |(16 / 5 : ℚ)| * 10 ^ 1 + 1 / 2 = 65 / 2 := by norm_num [abs_of_pos]
  have f : ⌊(65 / 2 : ℚ)⌋ = 32 := by
    rw [Int.floor_eq_iff]; norm_num
  unfold roundNat
  rw [e, f]; rfl

theorem fixedText_example : fixedText (16 / 5) 1 = "3.2" := by
  unfold fixedText
  simp only [roundNat_32]
  have : ¬ (16 / 5 : ℚ) < 0 := by norm_num
  rw [if_neg this]
  decide

/-- C7: for every combination of the jerk and tuning flags and every input
value, the composed metrics string is the enabled phrases in the order
acceleration, acceleration jerk, speed jerk, friction / lateral acceleration,
joined by `" | "`, and it does not end with the delimiter; for acceleration
3.2 (maximum seen 3.2, unit `units`), jerk shown, tuning hidden, acceleration
jerk 2 with difference 0 and speed jerk -1 with difference 3 it is the text of
the specification. -/
theorem text_composition :
    (∀ (maxAcceleration : ℚ) (i : TextInput),
      logicsDisplayString maxAcceleration i =
          " | ".intercalate (enabledPhrases maxAcceleration i) ∧
        qendsWith (logicsDisplayString maxAcceleration i) " | " = false) ∧
    logicsDisplayString 0 ⟨true, false, false, 16 / 5, 1, "units", 2, 0, -1, 3, 0, 0⟩ =
      "Acceleration: 3.2 units - Max: 3.2 units | Acceleration Jerk: 2 | Speed Jerk: -1 (-3)" ∧
    nextMaxAcceleration 0 ⟨true, false, false, 16 / 5, 1, "units", 2, 0, -1, 3, 0, 0⟩ = 16 / 5 := by
  have hm : nextMaxAcceleration 0 ⟨true, false, false, 16 / 5, 1, "units", 2, 0, -1, 3, 0, 0⟩ =
      16 / 5 := by
    norm_num [nextMaxAcceleration, stdMax]
  refine ⟨logicsDisplayString_phrases, ?_, hm⟩
  rw [(logicsDisplayString_phrases _ _).1]
  have hc : (16 / 5 : ℚ) * 1 = 16 / 5 := by norm_num
  simp only [enabledPhrases, hm, hc, accelerationPhrase, fixedText_example, if_true]
  decide

/-- C10: the jerk delta rendering loses the sign.  For every label the text
appended for a difference `d` and for `-d` is the same.  For every label the
lambda is called with (`Acceleration Jerk`, `Speed Jerk`; more generally every
label without a `%` character), every value and every non-zero difference `d`
the appended text is `<label>: <value> (-|d|) | `, the parenthesised delta
always carrying a leading minus sign, and for `d = 0` it is
`<label>: <value> | ` with no parenthesised delta. -/
theorem jerk_delta_sign_lost (displayString label : String) (value d : Int) :
    appendJerkInfo displayString label value (-d) = appendJerkInfo displayString label value d ∧
    ((label ∈ jerkLabels ∨ ∀ c ∈ label.data, c ≠ '%') →
      (d ≠ 0 →
        appendJerkInfo displayString label value d =
          displayString ++ label ++ ": " ++ intText value ++ " (-" ++ Nat.repr d.natAbs ++
            ") | ") ∧
      appendJerkInfo displayString label value 0 =
        displayString ++ label ++ ": " ++ intText value ++ " | ") := by
  refine ⟨appendJerkInfo_neg _ _ _ _, fun h => ?_⟩
  have hl : ∀ c ∈ label.data, c ≠ '%' := by
    rcases h with h | h
    · have h2 : label = "Acceleration Jerk" ∨ label = "Speed Jerk" := by
        simpa [jerkLabels] using h
      rcases h2 with rfl | rfl <;> decide
    · exact h
  refine ⟨fun hd => ?_, ?_⟩
  · rw [appendJerkInfo_eq _ _ _ _ hl, jerkPhrase, if_neg hd]
    apply String.ext
    simp [String.data_append]
  · rw [appendJerkInfo_eq _ _ _ _ hl, jerkPhrase, if_pos rfl]
    apply String.ext
    simp [String.data_append]

/-- Instance of C10 at the call of line 360 with speed jerk -1 and difference
3: the appended text is `Speed Jerk: -1 (-3) | `. -/
theorem jerk_delta_sign_lost_witness :
    ("Speed Jerk" ∈ jerkLabels ∧ (3 : Int) ≠ 0) ∧
    appendJerkInfo "" "Speed Jerk" (-1) 3 =
      "" ++ "Speed Jerk" ++ ": " ++ intText (-1) ++ " (-" ++ Nat.repr (Int.natAbs 3) ++ ") | " ∧
    appendJerkInfo "" "Speed Jerk" (-1) 3 = "Speed Jerk: -1 (-3) | " ∧
    appendJerkInfo "" "Speed Jerk" (-1) (-3) = "Speed Jerk: -1 (-3) | " :=
  ⟨by decide,
    ((jerk_delta_sign_lost "" "Speed Jerk" (-1) 3).2 (Or.inl (by decide))).1 (by decide),
    by decide, by decide⟩

end Onroad
